import Mathlib

set_option maxRecDepth 100000

/-!
A verification development for the PRAY chunked-container codec.

The repository holds two generations of the same codec:

* `prayer/blocks.py` and `prayer/prayer.py` — the class-based revision
  (`Block`, `TagBlock`, `Prayer`);
* `prayer.py` at the top level — the older revision (`prayer`, `tag_block`)
  working on byte slices and dicts.

Both are embedded below, shallowly: Python byte strings become `List Nat`
(each element a byte value `< 256` on the wire, a Unicode code point for
in-memory strings), fallible code returns `Except PrayErr`, the zlib
calls are abstracted as explicit function arguments, and the class-level
mutable `blocks` list of the container classes is threaded explicitly as
a state argument.
-/

/-- The error kinds of the spec (section 7) plus the raw Python exception
kinds the code raises where the spec gives no finer name. -/
inductive PrayErr
  | missingMagic
  | truncatedHeader
  | truncatedBody
  | truncatedVariableList
  | lengthMismatch
  | corruptCompressedData
  | invalidNameEncoding
  | unsupportedVariableType
  | typeError
  | valueError
  | overflowError
  | unicodeDecodeError

deriving DecidableEq, Repr

deriving instance DecidableEq for Except

/-- Little-endian interpretation of a (possibly short) byte slice, the
embedding of `int.from_bytes(bs, byteorder="little")`. -/
def leNat (l : List Nat) : Nat :=
  l.foldr (fun b acc => b + 256 * acc) 0

/-- Four-byte little-endian encoding of `n`, the embedding of
`n.to_bytes(4, "little")` and of `struct` code `I` for `n < 2^32`. -/
def le32 (n : Nat) : List Nat :=
  [n % 256, n / 256 % 256, n / 65536 % 256, n / 16777216 % 256]

/-- Strip trailing zero bytes, the embedding of `.rstrip("\x00")` on a
latin-1-decoded name field. -/
def rstripZero (l : List Nat) : List Nat :=
  (l.reverse.dropWhile (fun c => c == 0)).reverse

/-- One code point of Python's cp1252 codec, as used by
`common.coerce_encoding` (the name charset check).  Returns the byte a
code point encodes to, `none` when `str.encode("cp1252")` raises
`UnicodeEncodeError`.  The 0x80..0x9F byte block follows Python's
table: the bytes there stand for dedicated punctuation/letter code
points, the five undefined slots (0x81, 0x8D, 0x8F, 0x90, 0x9D) encode
nothing, and the C1 control code points U+0080..U+009F themselves are
rejected by the codec. -/
def cp1252Byte (c : Nat) : Option Nat :=
  if c ≤ 0x7F then some c
  else if 0xA0 ≤ c ∧ c ≤ 0xFF then some c
  else if c = 0x20AC then some 0x80
  else if c = 0x201A then some 0x82
  else if c = 0x0192 then some 0x83
  else if c = 0x201E then some 0x84
  else if c = 0x2026 then some 0x85
  else if c = 0x2020 then some 0x86
  else if c = 0x2021 then some 0x87
  else if c = 0x02C6 then some 0x88
  else if c = 0x2030 then some 0x89
  else if c = 0x0160 then some 0x8A
  else if c = 0x2039 then some 0x8B
  else if c = 0x0152 then some 0x8C
  else if c = 0x017D then some 0x8E
  else if c = 0x2018 then some 0x91
  else if c = 0x2019 then some 0x92
  else if c = 0x201C then some 0x93
  else if c = 0x201D then some 0x94
  else if c = 0x2022 then some 0x95
  else if c = 0x2013 then some 0x96
  else if c = 0x2014 then some 0x97
  else if c = 0x02DC then some 0x98
  else if c = 0x2122 then some 0x99
  else if c = 0x0161 then some 0x9A
  else if c = 0x203A then some 0x9B
  else if c = 0x0153 then some 0x9C
  else if c = 0x017E then some 0x9E
  else if c = 0x0178 then some 0x9F
  else none

/-- Embedding of `str.encode("cp1252")` over a whole string of code points. -/
def mapCp1252 : List Nat → Option (List Nat)
  | [] => some []
  | c :: rest =>
      match cp1252Byte c, mapCp1252 rest with
      | some b, some bs => some (b :: bs)
      | _, _ => none

/-- Embedding of `common.coerce_encoding(src, max_length)` with the
default cp1252 encoding.  Python's `if max_length:` treats 0 as "no
check"; both failure modes (unencodable and over-long) are the spec's
`InvalidNameEncoding`. -/
def coerceEncoding (src : List Nat) (maxLength : Nat) : Except PrayErr (List Nat) :=
  match mapCp1252 src with
  | none => .error .invalidNameEncoding
  | some enc =>
      if maxLength = 0 then .ok enc
      else if maxLength < enc.length then .error .invalidNameEncoding
      else .ok enc

/-- Which Python class a block instance has: the generic `Block`, the
generic `TagBlock`, or any strict subclass of either (the test suite's
`DerivedBlock` stands for these). -/
inductive BlockKind
  | generic
  | tags
  | derived

deriving DecidableEq, Repr

/-- Embedding of `INSTANCES_CAN_CHANGE_PREFIX` as shipped: exactly the `Block` and
`TagBlock` classes are registered (`blocks.py` lines 476 and 732), so
`Block.prefix_mutable` is a membership test against those two. -/
def kindMutable : BlockKind → Bool
  | .generic => true
  | .tags => true
  | .derived => false

/-- The in-memory state of a `blocks.Block`: its class, its 4-byte type
tag (`_prefix`, default `b"NONE"`), its name (`_name`, a string of code
points), the `_compressed` flag and the uncompressed `_body_cache`. -/
structure Block where
  kind : BlockKind
  pfx : List Nat
  name : List Nat
  compressed : Bool
  bodyCache : List Nat

deriving DecidableEq, Repr

/-- Embedding of `Block()`: a fresh generic block (`prefix b"NONE"`, empty name,
uncompressed, empty body). -/
def mkBlock : Block :=
  ⟨.generic, [0x4E, 0x4F, 0x4E, 0x45], [], false, []⟩

/-- The `Block.name` setter: validate through `coerce_encoding(value,
MAX_BLOCK_NAME_LENGTH)` (result discarded), then store the original
string. -/
def setName (b : Block) (v : List Nat) : Except PrayErr Block := do
  let _ ← coerceEncoding v 127
  .ok { b with name := v }

/-- Embedding of `bytes(s, encoding="latin-1")`: identity on code points `≤ 0xFF`,
`UnicodeEncodeError` (spec `InvalidNameEncoding`) otherwise. -/
def latin1Encode (l : List Nat) : Except PrayErr (List Nat) :=
  if l.all (fun c => c ≤ 255) then .ok l else .error .invalidNameEncoding

/-- The raw 144-byte header layout of `BLOCK_HEADER_STRUCT.pack_into`:
`4s` (zero-padded/truncated), `128s` (`ljust(128, b"\x00")` then struct
truncation), and three `u32` little-endian fields. -/
def packBlockHeader (p nm : List Nat) (stored decomp flag : Nat) : List Nat :=
  (p ++ List.replicate (4 - p.length) 0).take 4
    ++ (nm ++ List.replicate (128 - nm.length) 0).take 128
    ++ le32 stored ++ le32 decomp ++ le32 flag

/-- Embedding of `Block._write_block_header`: latin-1-encode the name (this is where
an unencodable name raises, before any header byte is produced), then
pack.  `struct` rejects `u32` fields outside `[0, 2^32)`. -/
def writeBlockHeader (b : Block) (storedLen decompLen flag : Nat) :
    Except PrayErr (List Nat) := do
  let enc ← latin1Encode b.name
  if storedLen < 4294967296 ∧ decompLen < 4294967296 then
    .ok (packBlockHeader b.pfx enc storedLen decompLen flag)
  else .error .overflowError

/-- The `Block.data` property for a generic block (`_write_body` is a
no-op): header with `stored = decompressed = len(body)`, flag 0,
followed by the uncompressed body. -/
def dataBytes (b : Block) : Except PrayErr (List Nat) := do
  let hdr ← writeBlockHeader b b.bodyCache.length b.bodyCache.length 0
  .ok (hdr ++ b.bodyCache)

/-- The `Block.data_compressed` property for a generic block: the body
is compressed (`zlib.compress`, abstracted as `compressFn`), the header
carries `stored = len(compressed)`, `decompressed = len(body)`, flag 1. -/
def dataCompressed (compressFn : List Nat → List Nat) (b : Block) :
    Except PrayErr (List Nat) := do
  let comp := compressFn b.bodyCache
  let hdr ← writeBlockHeader b comp.length b.bodyCache.length 1
  .ok (hdr ++ comp)

/-- The unpacked `BlockHeaderTuple` of `BLOCK_HEADER_STRUCT.unpack_from`. -/
structure HeaderInfo where
  hPfx : List Nat
  hName : List Nat
  hLength : Nat
  hLengthDecompressed : Nat
  hCompressed : Nat

deriving DecidableEq, Repr

def unpackHeader (data : List Nat) : HeaderInfo :=
  ⟨data.take 4,
   (data.drop 4).take 128,
   leNat ((data.drop 132).take 4),
   leNat ((data.drop 136).take 4),
   leNat ((data.drop 140).take 4)⟩

/-- Embedding of `Block._read_block_header`: reject a foreign type tag on
non-generic instances, adopt it on generic ones; decode the name field
with latin-1, strip trailing NULs, and push it through the `name`
setter; finally `self._compressed = bool(raw.compressed and raw.length
!= raw.length_decompressed)` — note the Python truthiness test on the
whole 32-bit flag, not on its lowest bit.  Returns the updated block
together with the expected stored and decompressed lengths. -/
def readBlockHeader (b : Block) (data : List Nat) :
    Except PrayErr (Block × Nat × Nat) := do
  let h := unpackHeader data
  let b1 ←
    if h.hPfx ≠ b.pfx then
      if ¬ kindMutable b.kind then .error .typeError
      else .ok { b with pfx := h.hPfx }
    else .ok b
  let b2 ← setName b1 (rstripZero h.hName)
  let isComp := decide (h.hCompressed ≠ 0 ∧ h.hLength ≠ h.hLengthDecompressed)
  .ok ({ b2 with compressed := isComp }, h.hLength, h.hLengthDecompressed)

/-- Embedding of `Block._read_block` for a generic block (`_read_body` is a no-op):
length-check the buffer against the 144-byte header (`TruncatedHeader`),
read the header, then either decompress the body (after checking the
stored length, spec `TruncatedBody`) or take it as is, and check the
resulting length against the declared decompressed length.
`decompressFn` abstracts `zlib.decompress`. -/
def readBlock (decompressFn : List Nat → Except PrayErr (List Nat))
    (b : Block) (data : List Nat) : Except PrayErr Block :=
  if data.length < 144 then .error .truncatedHeader
  else do
    let (b2, expLen, expLenD) ← readBlockHeader b data
    let bodySource := data.drop 144
    let bs ←
      if b2.compressed then
        if bodySource.length ≠ expLen then .error .truncatedBody
        else decompressFn bodySource
      else .ok bodySource
    if bs.length ≠ expLenD then .error .lengthMismatch
    else .ok { b2 with bodyCache := bs }

/-- The `Block.prefix` setter: `TypeError` unless the instance's class
is registered in `INSTANCES_CAN_CHANGE_PREFIX`, `ValueError` unless the
value has length 4; the raise happens before the assignment, so on
failure the instance keeps its old tag.  Modelled as the post-state
paired with the raised exception, if any. -/
def pfxSetter (b : Block) (v : List Nat) : Block × Option PrayErr :=
  if ¬ kindMutable b.kind then (b, some .typeError)
  else if v.length ≠ 4 then (b, some .valueError)
  else ({ b with pfx := v }, none)

/-- Strict UTF-8 decoding of a byte list to code points, the embedding
of `bytes.decode()` with Python's default codec (as used, counter to
the surrounding latin-1 convention, by `blocks._read_prefixed_string`).
Rejects truncated sequences, bad continuations, overlong forms,
surrogates and code points above U+10FFFF. -/
def utf8Decode : List Nat → Option (List Nat)
  | [] => some []
  | b :: rest =>
      if b < 0x80 then (utf8Decode rest).map (fun t => b :: t)
      else if 0xC2 ≤ b ∧ b ≤ 0xDF then
        match rest with
        | c1 :: rest2 =>
            if 0x80 ≤ c1 ∧ c1 ≤ 0xBF then
              (utf8Decode rest2).map
                (fun t => ((b - 0xC0) * 64 + (c1 - 0x80)) :: t)
            else none
        | [] => none
      else if 0xE0 ≤ b ∧ b ≤ 0xEF then
        match rest with
        | c1 :: c2 :: rest2 =>
            if (if b = 0xE0 then 0xA0 else 0x80) ≤ c1
                ∧ c1 ≤ (if b = 0xED then 0x9F else 0xBF)
                ∧ 0x80 ≤ c2 ∧ c2 ≤ 0xBF then
              (utf8Decode rest2).map
                (fun t => ((b - 0xE0) * 4096 + (c1 - 0x80) * 64 + (c2 - 0x80)) :: t)
            else none
        | _ => none
      else if 0xF0 ≤ b ∧ b ≤ 0xF4 then
        match rest with
        | c1 :: c2 :: c3 :: rest2 =>
            if (if b = 0xF0 then 0x90 else 0x80) ≤ c1
                ∧ c1 ≤ (if b = 0xF4 then 0x8F else 0xBF)
                ∧ 0x80 ≤ c2 ∧ c2 ≤ 0xBF ∧ 0x80 ≤ c3 ∧ c3 ≤ 0xBF then
              (utf8Decode rest2).map
                (fun t => ((b - 0xF0) * 262144 + (c1 - 0x80) * 4096
                  + (c2 - 0x80) * 64 + (c3 - 0x80)) :: t)
            else none
        | _ => none
      else none

/-- A tag value: a named integer or a named string variable. -/
inductive TagVal
  | int (n : Nat)
  | str (s : List Nat)

deriving DecidableEq, Repr

/-- Embedding of `blocks._read_uint32`: `stream.read(4)` returns at most 4 bytes —
at end of stream it silently returns fewer, and `int.from_bytes` of the
short read still succeeds.  Returns the value and the rest of the
stream. -/
def readUint32S (s : List Nat) : Nat × List Nat :=
  (leNat (s.take 4), s.drop 4)

/-- Embedding of `blocks._read_prefixed_string`: a u32 length, then that many bytes
(again silently short at end of stream), decoded with `bytes.decode()`
— the default UTF-8, since the `encoding` parameter is never passed on. -/
def readPrefixedStringS (s : List Nat) : Except PrayErr (List Nat × List Nat) :=
  let (n, s1) := readUint32S s
  match utf8Decode (s1.take n) with
  | none => .error .unicodeDecodeError
  | some cs => .ok (cs, s1.drop n)

/-- Embedding of `TagBlock._read_variable_type`: read `count` (name, value) records
from the stream with the given value reader, appending to the
accumulated variable list. -/
def readVariableTypeAux
    (reader : List Nat → Except PrayErr (TagVal × List Nat)) :
    Nat → List Nat → List (List Nat × TagVal) →
    Except PrayErr (List (List Nat × TagVal) × List Nat)
  | 0, s, acc => .ok (acc, s)
  | n + 1, s, acc => do
      let (nm, s1) ← readPrefixedStringS s
      let (v, s2) ← reader s1
      readVariableTypeAux reader n s2 (acc ++ [(nm, v)])

/-- The integer value reader (`_read_uint32`). -/
def intReader (s : List Nat) : Except PrayErr (TagVal × List Nat) :=
  let (v, s1) := readUint32S s
  .ok (.int v, s1)

/-- The string value reader (`_read_prefixed_string`). -/
def strReader (s : List Nat) : Except PrayErr (TagVal × List Nat) := do
  let (cs, s1) ← readPrefixedStringS s
  .ok (.str cs, s1)

/-- Embedding of `TagBlock._read_body`: a count-prefixed run of integer variables
followed by a count-prefixed run of string variables, read from a
stream over the body cache; whatever trails the declared records is
ignored. -/
def tagReadBody (body : List Nat) : Except PrayErr (List (List Nat × TagVal)) := do
  let (nInts, s1) := readUint32S body
  let (vars1, s2) ← readVariableTypeAux intReader nInts s1 []
  let (nStrs, s3) := readUint32S s2
  let (vars2, _) ← readVariableTypeAux strReader nStrs s3 vars1
  .ok vars2

/-- The dict the older `prayer.py` revision builds per block. -/
structure PrayBlockD where
  btype : List Nat
  bname : List Nat
  compressedDataLength : Nat
  uncompressedDataLength : Nat
  compressedData : List Nat
  decompressedData : List Nat

deriving DecidableEq, Repr

/-- Embedding of `prayer._extract_pray_blocks` of the older top-level `prayer.py`:
slice the 144-byte header fields out of `data` (Python slices silently
truncate), treat the block as compressed exactly when the flag word
equals 1, decompress if so, append the dict to the instance's `blocks`
attribute — which is the CLASS-level list, threaded here as `blocks` —
and recurse on the remainder `data[144 + stored_length:]` while it is
non-empty. -/
def extractPrayBlocksOld (decompressFn : List Nat → Except PrayErr (List Nat))
    (blocks : List PrayBlockD) (data : List Nat) :
    Except PrayErr (List PrayBlockD) := do
  let btype := data.take 4
  let bname := rstripZero ((data.drop 4).take 128)
  let clen := leNat ((data.drop 132).take 4)
  let ulen := leNat ((data.drop 136).take 4)
  let isComp := leNat ((data.drop 140).take 4) == 1
  let compData := (data.drop 144).take clen
  let decompData ← if isComp then decompressFn compData else .ok compData
  let blocks2 := blocks ++ [⟨btype, bname, clen, ulen, compData, decompData⟩]
  if h : (data.drop (144 + clen)).length ≠ 0 then
    extractPrayBlocksOld decompressFn blocks2 (data.drop (144 + clen))
  else
    .ok blocks2
termination_by data.length
decreasing_by
  simp only [List.length_drop] at *
  omega

/-- Embedding of `prayer.__init__` of the older revision: require the 4-byte magic
(latin-1-decoded), strip it, and walk the rest — unconditionally, even
when nothing follows the magic.  `blocks` is the pre-existing content
of the class-level `blocks` list. -/
def prayerOldInit (decompressFn : List Nat → Except PrayErr (List Nat))
    (blocks : List PrayBlockD) (pray : List Nat) :
    Except PrayErr (List PrayBlockD) :=
  if pray.take 4 ≠ [0x50, 0x52, 0x41, 0x59] then .error .missingMagic
  else extractPrayBlocksOld decompressFn blocks (pray.drop 4)

/-- Embedding of `tag_block._get_named_integer_variables`: recurse `count` times
over byte slices (which silently truncate at the end of the data),
appending `(key, value)` integer entries; when the count is exhausted
the leftover slice becomes `str_data`. -/
def getNamedIntegerVariables (data : List Nat) (count : Nat)
    (acc : List (List Nat × TagVal)) : List (List Nat × TagVal) × List Nat :=
  match count with
  | 0 => (acc, data)
  | n + 1 =>
      let keyLength := leNat (data.take 4)
      let key := (data.drop 4).take keyLength
      let value := leNat ((data.drop (4 + keyLength)).take 4)
      getNamedIntegerVariables (data.drop (8 + keyLength)) n
        (acc ++ [(key, .int value)])

/-- Embedding of `tag_block._get_named_string_variables`: as above but with a
length-prefixed string value. -/
def getNamedStringVariables (data : List Nat) (count : Nat)
    (acc : List (List Nat × TagVal)) : List (List Nat × TagVal) × List Nat :=
  match count with
  | 0 => (acc, data)
  | n + 1 =>
      let keyLength := leNat (data.take 4)
      let key := (data.drop 4).take keyLength
      let valueLength := leNat ((data.drop (4 + keyLength)).take 4)
      let value := (data.drop (8 + keyLength)).take valueLength
      getNamedStringVariables (data.drop (8 + keyLength + valueLength)) n
        (acc ++ [(key, .str value)])

/-- Embedding of `tag_block.__init__` on a decompressed body: count-prefixed integer
entries, then count-prefixed string entries, accumulated into the one
`named_variables` list (integers first). -/
def tagBlockInit (body : List Nat) : List (List Nat × TagVal) :=
  let nInts := leNat (body.take 4)
  let (vars1, strData) := getNamedIntegerVariables (body.drop 4) nInts []
  let nStrs := leNat (strData.take 4)
  let (vars2, _) := getNamedStringVariables (strData.drop 4) nStrs vars1
  vars2

/-- The integer-valued entries of a tag list, in order, as
`(key, value)` pairs — the `ints` list `generate_tag_block_data` builds
with its `type(x) == int` test. -/
def intPairs (l : List (List Nat × TagVal)) : List (List Nat × Nat) :=
  l.filterMap fun p =>
    match p.2 with
    | .int n => some (p.1, n)
    | .str _ => none

/-- The string-valued entries of a tag list, in order.  (The source's
`elif type(x[1] == str)` condition is a Python truthiness slip that
accepts anything non-integer; over the integer-or-string value domain
modelled here it coincides with the string test.) -/
def strPairs (l : List (List Nat × TagVal)) : List (List Nat × List Nat) :=
  l.filterMap fun p =>
    match p.2 with
    | .int _ => none
    | .str s => some (p.1, s)

/-- The integer records of `tag_block.generate_tag_block_data`: per
entry a latin-1 key length (`len(...).to_bytes(4, ...)` raises
`OverflowError` beyond 32 bits), the key bytes, and the 4-byte value
(same overflow rule). -/
def encIntRecords : List (List Nat × Nat) → Except PrayErr (List Nat)
  | [] => .ok []
  | (k, v) :: rest => do
      let ek ← latin1Encode k
      if ek.length < 4294967296 ∧ v < 4294967296 then do
        let tl ← encIntRecords rest
        .ok (le32 ek.length ++ ek ++ le32 v ++ tl)
      else .error .overflowError

/-- The string records of `generate_tag_block_data`: key length, key
bytes, value length, value bytes, all latin-1 / u32 LE. -/
def encStrRecords : List (List Nat × List Nat) → Except PrayErr (List Nat)
  | [] => .ok []
  | (k, v) :: rest => do
      let ek ← latin1Encode k
      let ev ← latin1Encode v
      if ek.length < 4294967296 ∧ ev.length < 4294967296 then do
        let tl ← encStrRecords rest
        .ok (le32 ek.length ++ ek ++ le32 ev.length ++ ev ++ tl)
      else .error .overflowError

/-- Embedding of `tag_block.generate_tag_block_data`: partition the variable list
into integer entries and the rest (each sublist in original order),
then emit the integer section (count, records) followed by the string
section. -/
def generateTagBlockData (l : List (List Nat × TagVal)) :
    Except PrayErr (List Nat) := do
  let ints := intPairs l
  let strs := strPairs l
  if ints.length < 4294967296 ∧ strs.length < 4294967296 then do
    let ib ← encIntRecords ints
    let sb ← encStrRecords strs
    .ok (le32 ints.length ++ ib ++ le32 strs.length ++ sb)
  else .error .overflowError

/-- What `Prayer._extract_pray_blocks` of `prayer/prayer.py` passes to
the `Block` constructor: the raw buffer, positionally — which lands in
the constructor's `name` parameter.  `Block.__init__` checks `name is
not None` and then `isinstance(name, str)`, so a bytes/bytearray
argument (even an empty one) raises `TypeError("Block name must be a
string")` before anything else happens. -/
inductive PyArg
  | pstr (s : List Nat)
  | pbytes (b : List Nat)
  | pnone

deriving DecidableEq, Repr

/-- The `name` handling at the top of `Block.__init__`. -/
def blockInitName (arg : PyArg) : Except PrayErr (List Nat) :=
  match arg with
  | .pnone => .ok []
  | .pstr s => .ok s
  | .pbytes _ => .error .typeError

/-- Embedding of `Prayer._extract_pray_blocks` of `prayer/prayer.py`: read the
stored length out of the header slice, construct `Block(data)` — the
buffer passed positionally as `name` — append it to the class-level
`blocks` list, and recurse on the remainder. -/
def extractPrayBlocksNew (blocks : List Block) (data : List Nat) :
    Except PrayErr (List Block) := do
  let clen := leNat ((data.drop 132).take 4)
  let nm ← blockInitName (.pbytes data)
  let b2 ← setName mkBlock nm
  let blocks2 := blocks ++ [b2]
  if h : (data.drop (144 + clen)).length ≠ 0 then
    extractPrayBlocksNew blocks2 (data.drop (144 + clen))
  else
    .ok blocks2
termination_by data.length
decreasing_by
  simp only [List.length_drop] at *
  omega

/-- Embedding of `Prayer.__init__` of `prayer/prayer.py`: magic check, then the
walk; `blocks` is the pre-existing content of the class-level list. -/
def prayerNewInit (blocks : List Block) (pray : List Nat) :
    Except PrayErr (List Block) :=
  if pray.take 4 ≠ [0x50, 0x52, 0x41, 0x59] then .error .missingMagic
  else extractPrayBlocksNew blocks (pray.drop 4)

/-- Embedding of `TagBlock._write_body` of `blocks.py`: the partition loop over
`named_variables` runs (appending bare values, keys dropped), and then
`self._write_variable_type(ints, _write_uint32)` is called — but
`_write_variable_type(self, dest_stream, value_writer, src)` takes three
positional arguments, so the call is short of its `src` parameter and
Python raises `TypeError` before anything is written; the body cache is
never filled.  (Inside, `_write_uint32(len(src))` misses its stream
argument too, and `ints.append(value)` lost the keys.) -/
def tagWriteBody (_vars : List (List Nat × TagVal)) : Except PrayErr (List Nat) :=
  .error .typeError

/-- A decompressor stub that fails on every input, used where the code
under scrutiny must not reach `zlib.decompress` at all. -/
def failD : List Nat → Except PrayErr (List Nat) :=
  fun _ => .error .corruptCompressedData

/-- A stand-in compressor for witnesses: prepend a marker byte (always
changes the length). -/
def stubCompress (l : List Nat) : List Nat := 120 :: l

/-- The inverse of `stubCompress`; fails on streams it did not produce. -/
def stubDecompress (l : List Nat) : Except PrayErr (List Nat) :=
  match l with
  | 120 :: t => .ok t
  | _ => .error .corruptCompressedData

/-- A 10-byte uncompressed body used by the shared-state scenario. -/
def c4Body : List Nat := List.replicate 10 7

/-- A one-block container: magic, then a single uncompressed block. -/
def c4Buf : List Nat :=
  [80, 82, 65, 89] ++ (packBlockHeader [65, 65, 65, 65] [] 10 10 0 ++ (c4Body ++ []))

/-- The dict the old walker builds for `c4Buf`'s single block. -/
def c4Dict : PrayBlockD := ⟨[65, 65, 65, 65], [], 10, 10, c4Body, c4Body⟩

/-- The two bodies of the order-preservation scenario. -/
def c5Body1 : List Nat := List.replicate 10 1

def c5Body2 : List Nat := List.replicate 20 2

/-- A container of two uncompressed blocks with 10- and 20-byte bodies. -/
def c5Buf : List Nat :=
  [80, 82, 65, 89] ++ (packBlockHeader [70, 73, 76, 69] [] 10 10 0 ++
    (c5Body1 ++ (packBlockHeader [70, 73, 76, 69] [] 20 20 0 ++ (c5Body2 ++ []))))

def c5Dict1 : PrayBlockD := ⟨[70, 73, 76, 69], [], 10, 10, c5Body1, c5Body1⟩

def c5Dict2 : PrayBlockD := ⟨[70, 73, 76, 69], [], 20, 20, c5Body2, c5Body2⟩

theorem le32_length (n : Nat) : (le32 n).length = 4 := rfl

theorem leNat_le32 (n : Nat) (h : n < 4294967296) : leNat (le32 n) = n := by
  simp only [leNat, le32, List.foldr_cons, List.foldr_nil]
  omega

theorem take_of_append {l r : List Nat} {n : Nat} (h : l.length = n) :
    (l ++ r).take n = l := List.take_left' h

theorem drop_of_append {l r : List Nat} {n : Nat} (h : l.length = n) :
    (l ++ r).drop n = r := List.drop_left' h

theorem rstripZero_append_zeros (l : List Nat) (k : Nat) :
    rstripZero (l ++ List.replicate k 0) = rstripZero l := by
  induction k with
  | zero => simp
  | succ m ih =>
      have : l ++ List.replicate (m + 1) 0 =
          (l ++ List.replicate m 0) ++ [0] := by
        simp [List.replicate_succ']
      rw [this]
      simp only [rstripZero, List.reverse_append, List.reverse_cons,
        List.reverse_nil, List.nil_append, List.cons_append] at *
      simp [List.dropWhile, ih]

theorem mapCp1252_eq_some (l : List Nat)
    (h : ∀ c ∈ l, (cp1252Byte c).isSome) :
    ∃ enc, mapCp1252 l = some enc ∧ enc.length = l.length := by
  induction l with
  | nil => exact ⟨[], rfl, rfl⟩
  | cons c rest ih =>
      have hc := h c (List.mem_cons_self c rest)
      obtain ⟨b, hb⟩ := Option.isSome_iff_exists.mp hc
      obtain ⟨enc, henc, hlen⟩ := ih fun x hx => h x (List.mem_cons_of_mem c hx)
      exact ⟨b :: enc, by simp [mapCp1252, hb, henc], by simp [hlen]⟩

theorem drop_split (l : List Nat) (m n : Nat) :
    l.drop (m + n) = (l.drop m).drop n := (List.drop_drop n m l).symm

theorem latin1Encode_ok {l : List Nat} (h : ∀ c ∈ l, c ≤ 255) :
    latin1Encode l = .ok l := by
  have : l.all (fun c => c ≤ 255) = true := by
    simp only [List.all_eq_true, decide_eq_true_eq]; exact h
  simp [latin1Encode, this]

theorem latin1Encode_fail {l : List Nat} (h : ∃ c ∈ l, 255 < c) :
    latin1Encode l = .error .invalidNameEncoding := by
  have : ¬ l.all (fun c => c ≤ 255) = true := by
    simp only [List.all_eq_true, decide_eq_true_eq]
    intro hall
    obtain ⟨c, hc, hgt⟩ := h
    exact absurd (hall c hc) (by omega)
  simp [latin1Encode, this]

theorem setName_ok (b : Block) (v : List Nat)
    (h1 : ∀ c ∈ v, (cp1252Byte c).isSome) (h2 : v.length ≤ 127) :
    setName b v = .ok { b with name := v } := by
  obtain ⟨enc, henc, hlen⟩ := mapCp1252_eq_some v h1
  have hno : ¬ (127 < enc.length) := by omega
  simp [setName, coerceEncoding, henc, hno, Bind.bind, Except.bind]

theorem packBlockHeader_length (p nm : List Nat) (s d f : Nat) :
    (packBlockHeader p nm s d f).length = 144 := by
  simp only [packBlockHeader, le32, List.length_append, List.length_take,
    List.length_replicate, List.length_cons, List.length_nil]
  omega

theorem unpackHeader_pack (p nm : List Nat) (s d f : Nat) (rest : List Nat)
    (hp : p.length = 4) (hnm : nm.length ≤ 128)
    (hs : s < 4294967296) (hd : d < 4294967296) (hf : f < 4294967296) :
    unpackHeader (packBlockHeader p nm s d f ++ rest) =
      ⟨p, nm ++ List.replicate (128 - nm.length) 0, s, d, f⟩ := by
  have hppad : p ++ List.replicate (4 - p.length) 0 = p := by
    rw [hp]; simp
  have hptake : (p ++ List.replicate (4 - p.length) 0).take 4 = p := by
    rw [hppad, ← hp, List.take_length]
  have hpadlen : (nm ++ List.replicate (128 - nm.length) 0).length = 128 := by
    simp; omega
  have hntake :
      ((nm ++ List.replicate (128 - nm.length) 0).take 128)
        = nm ++ List.replicate (128 - nm.length) 0 :=
    List.take_of_length_le (by omega)
  have hdata : packBlockHeader p nm s d f ++ rest =
      p ++ ((nm ++ List.replicate (128 - nm.length) 0)
        ++ (le32 s ++ (le32 d ++ (le32 f ++ rest)))) := by
    simp only [packBlockHeader, hptake, hntake, List.append_assoc]
  have h4 : (packBlockHeader p nm s d f ++ rest).take 4 = p := by
    rw [hdata]; exact take_of_append hp
  have hdrop4 : (packBlockHeader p nm s d f ++ rest).drop 4 =
      (nm ++ List.replicate (128 - nm.length) 0)
        ++ (le32 s ++ (le32 d ++ (le32 f ++ rest))) := by
    rw [hdata]; exact drop_of_append hp
  have hname : ((packBlockHeader p nm s d f ++ rest).drop 4).take 128 =
      nm ++ List.replicate (128 - nm.length) 0 := by
    rw [hdrop4]; exact take_of_append hpadlen
  have hdrop132 : (packBlockHeader p nm s d f ++ rest).drop 132 =
      le32 s ++ (le32 d ++ (le32 f ++ rest)) := by
    have : (132 : Nat) = 4 + 128 := rfl
    rw [this, drop_split, hdrop4]; exact drop_of_append hpadlen
  have hdrop136 : (packBlockHeader p nm s d f ++ rest).drop 136 =
      le32 d ++ (le32 f ++ rest) := by
    have : (136 : Nat) = 132 + 4 := rfl
    rw [this, drop_split, hdrop132]; exact drop_of_append (le32_length s)
  have hdrop140 : (packBlockHeader p nm s d f ++ rest).drop 140 =
      le32 f ++ rest := by
    have : (140 : Nat) = 136 + 4 := rfl
    rw [this, drop_split, hdrop136]; exact drop_of_append (le32_length d)
  simp only [unpackHeader, h4, hname, hdrop132, hdrop136, hdrop140,
    take_of_append (le32_length s), take_of_append (le32_length d),
    take_of_append (le32_length f), leNat_le32 s hs, leNat_le32 d hd,
    leNat_le32 f hf]

theorem readBlockHeader_generic (p nm : List Nat) (s d f : Nat) (rest : List Nat)
    (hp : p.length = 4) (hlen : nm.length ≤ 127) (hrs : rstripZero nm = nm)
    (hcp : ∀ c ∈ nm, (cp1252Byte c).isSome)
    (hs : s < 4294967296) (hd : d < 4294967296) (hf : f < 4294967296) :
    readBlockHeader mkBlock (packBlockHeader p nm s d f ++ rest) =
      .ok (⟨.generic, p, nm, decide (f ≠ 0 ∧ s ≠ d), []⟩, s, d) := by
  have hup := unpackHeader_pack p nm s d f rest hp (by omega) hs hd hf
  have hstrip : rstripZero (nm ++ List.replicate (128 - nm.length) 0) = nm := by
    rw [rstripZero_append_zeros, hrs]
  have hsn := setName_ok ⟨.generic, p, [], false, []⟩ nm hcp hlen
  by_cases hpe : p = mkBlock.pfx
  · subst hpe
    have hsn2 := setName_ok mkBlock nm hcp hlen
    simp [readBlockHeader, hup, hstrip, hsn2, mkBlock, kindMutable,
      Bind.bind, Except.bind] at *
  · simp only [mkBlock] at hpe
    simp [readBlockHeader, hup, hstrip, hpe, hsn, mkBlock, kindMutable,
      Bind.bind, Except.bind]

theorem dataBytes_pack (p nm body : List Nat) (cf : Bool)
    (h255 : ∀ c ∈ nm, c ≤ 255) (hb : body.length < 4294967296) :
    dataBytes ⟨.generic, p, nm, cf, body⟩ =
      .ok (packBlockHeader p nm body.length body.length 0 ++ body) := by
  simp [dataBytes, writeBlockHeader, latin1Encode_ok h255, hb,
    Bind.bind, Except.bind]

theorem dataCompressed_pack (compressFn : List Nat → List Nat)
    (p nm body : List Nat) (cf : Bool)
    (h255 : ∀ c ∈ nm, c ≤ 255) (hb : body.length < 4294967296)
    (hcb : (compressFn body).length < 4294967296) :
    dataCompressed compressFn ⟨.generic, p, nm, cf, body⟩ =
      .ok (packBlockHeader p nm (compressFn body).length body.length 1
        ++ compressFn body) := by
  simp [dataCompressed, writeBlockHeader, latin1Encode_ok h255, hb, hcb,
    Bind.bind, Except.bind]

theorem readBlock_uncompressed (decompressFn : List Nat → Except PrayErr (List Nat))
    (p nm body : List Nat)
    (hp : p.length = 4) (hlen : nm.length ≤ 127) (hrs : rstripZero nm = nm)
    (hcp : ∀ c ∈ nm, (cp1252Byte c).isSome) (hb : body.length < 4294967296) :
    readBlock decompressFn mkBlock
        (packBlockHeader p nm body.length body.length 0 ++ body) =
      .ok ⟨.generic, p, nm, false, body⟩ := by
  have hlen144 :
      (packBlockHeader p nm body.length body.length 0 ++ body).length =
        144 + body.length := by
    simp [packBlockHeader_length]
  have hrh := readBlockHeader_generic p nm body.length body.length 0 body
    hp hlen hrs hcp hb hb (by omega)
  have hdrop : (packBlockHeader p nm body.length body.length 0 ++ body).drop 144
      = body := drop_of_append (packBlockHeader_length _ _ _ _ _)
  simp [readBlock, hlen144, hrh, hdrop, Bind.bind, Except.bind]

theorem readBlock_compressed (compressFn : List Nat → List Nat)
    (decompressFn : List Nat → Except PrayErr (List Nat))
    (p nm body : List Nat)
    (hp : p.length = 4) (hlen : nm.length ≤ 127) (hrs : rstripZero nm = nm)
    (hcp : ∀ c ∈ nm, (cp1252Byte c).isSome) (hb : body.length < 4294967296)
    (hinv : decompressFn (compressFn body) = .ok body)
    (hcl : (compressFn body).length ≠ body.length)
    (hcb : (compressFn body).length < 4294967296) :
    readBlock decompressFn mkBlock
        (packBlockHeader p nm (compressFn body).length body.length 1
          ++ compressFn body) =
      .ok ⟨.generic, p, nm, true, body⟩ := by
  have hlen144 :
      (packBlockHeader p nm (compressFn body).length body.length 1
        ++ compressFn body).length = 144 + (compressFn body).length := by
    simp [packBlockHeader_length]
  have hrh := readBlockHeader_generic p nm (compressFn body).length body.length 1
    (compressFn body) hp hlen hrs hcp hcb hb (by omega)
  have hdrop :
      (packBlockHeader p nm (compressFn body).length body.length 1
        ++ compressFn body).drop 144 = compressFn body :=
    drop_of_append (packBlockHeader_length _ _ _ _ _)
  have hdec : decide ((1 : Nat) ≠ 0 ∧ (compressFn body).length ≠ body.length)
      = true := by simp [hcl]
  rw [hdec] at hrh
  simp [readBlock, hlen144, hrh, hdrop, hinv, Bind.bind, Except.bind]

theorem intRecord_slices (k : List Nat) (v : Nat) (tl : List Nat)
    (hkl : k.length < 4294967296) (hv : v < 4294967296) :
    leNat ((le32 k.length ++ (k ++ (le32 v ++ tl))).take 4) = k.length ∧
    ((le32 k.length ++ (k ++ (le32 v ++ tl))).drop 4).take k.length = k ∧
    leNat (((le32 k.length ++ (k ++ (le32 v ++ tl))).drop (4 + k.length)).take 4)
      = v ∧
    (le32 k.length ++ (k ++ (le32 v ++ tl))).drop (8 + k.length) = tl := by
  have h1 : (le32 k.length ++ (k ++ (le32 v ++ tl))).take 4 = le32 k.length :=
    take_of_append (le32_length _)
  have h2 : (le32 k.length ++ (k ++ (le32 v ++ tl))).drop 4 =
      k ++ (le32 v ++ tl) := drop_of_append (le32_length _)
  have h3 : (le32 k.length ++ (k ++ (le32 v ++ tl))).drop (4 + k.length) =
      le32 v ++ tl := by
    rw [drop_split, h2]; exact drop_of_append rfl
  have h4 : (le32 k.length ++ (k ++ (le32 v ++ tl))).drop (8 + k.length) = tl := by
    have he : 8 + k.length = (4 + k.length) + 4 := by omega
    rw [he, drop_split, h3]; exact drop_of_append (le32_length _)
  refine ⟨?_, ?_, ?_, h4⟩
  · rw [h1]; exact leNat_le32 _ hkl
  · rw [h2]; exact take_of_append rfl
  · rw [h3, take_of_append (le32_length _)]; exact leNat_le32 _ hv

theorem encIntRecords_decode (ps : List (List Nat × Nat)) (rest : List Nat)
    (h : ∀ q ∈ ps, (∀ c ∈ q.1, c ≤ 255) ∧ q.1.length < 4294967296
      ∧ q.2 < 4294967296) :
    ∃ bs, encIntRecords ps = .ok bs ∧
      ∀ acc, getNamedIntegerVariables (bs ++ rest) ps.length acc =
        (acc ++ ps.map (fun q => (q.1, TagVal.int q.2)), rest) := by
  induction ps with
  | nil => exact ⟨[], rfl, fun acc => by simp [getNamedIntegerVariables]⟩
  | cons q tl ih =>
      obtain ⟨k, v⟩ := q
      obtain ⟨hk255, hkl, hv⟩ := h (k, v) (List.mem_cons_self _ _)
      obtain ⟨bs', henc', hdec'⟩ := ih fun q hq => h q (List.mem_cons_of_mem _ hq)
      refine ⟨le32 k.length ++ k ++ le32 v ++ bs', ?_, ?_⟩
      · simp [encIntRecords, latin1Encode_ok hk255, hkl, hv, henc',
          Bind.bind, Except.bind]
      · intro acc
        have hassoc : (le32 k.length ++ k ++ le32 v ++ bs') ++ rest =
            le32 k.length ++ (k ++ (le32 v ++ (bs' ++ rest))) := by
          simp [List.append_assoc]
        obtain ⟨s1, s2, s3, s4⟩ := intRecord_slices k v (bs' ++ rest) hkl hv
        have hcount : ((k, v) :: tl).length = tl.length + 1 := rfl
        rw [hassoc, hcount]
        simp only [getNamedIntegerVariables, s1, s2, s3, s4]
        rw [hdec' (acc ++ [(k, TagVal.int v)])]
        simp

theorem strRecord_slices (k : List Nat) (v tl : List Nat)
    (hkl : k.length < 4294967296) (hvl : v.length < 4294967296) :
    leNat ((le32 k.length ++ (k ++ (le32 v.length ++ (v ++ tl)))).take 4)
      = k.length ∧
    ((le32 k.length ++ (k ++ (le32 v.length ++ (v ++ tl)))).drop 4).take k.length
      = k ∧
    leNat (((le32 k.length ++ (k ++ (le32 v.length ++ (v ++ tl)))).drop
      (4 + k.length)).take 4) = v.length ∧
    ((le32 k.length ++ (k ++ (le32 v.length ++ (v ++ tl)))).drop
      (8 + k.length)).take v.length = v ∧
    (le32 k.length ++ (k ++ (le32 v.length ++ (v ++ tl)))).drop
      (8 + k.length + v.length) = tl := by
  obtain ⟨s1, s2, s3, s4⟩ := intRecord_slices k v.length (v ++ tl) hkl hvl
  refine ⟨s1, s2, s3, ?_, ?_⟩
  · rw [s4]; exact take_of_append rfl
  · rw [drop_split, s4]; exact drop_of_append rfl

theorem encStrRecords_decode (ps : List (List Nat × List Nat)) (rest : List Nat)
    (h : ∀ q ∈ ps, (∀ c ∈ q.1, c ≤ 255) ∧ q.1.length < 4294967296
      ∧ (∀ c ∈ q.2, c ≤ 255) ∧ q.2.length < 4294967296) :
    ∃ bs, encStrRecords ps = .ok bs ∧
      ∀ acc, getNamedStringVariables (bs ++ rest) ps.length acc =
        (acc ++ ps.map (fun q => (q.1, TagVal.str q.2)), rest) := by
  induction ps with
  | nil => exact ⟨[], rfl, fun acc => by simp [getNamedStringVariables]⟩
  | cons q tl ih =>
      obtain ⟨k, v⟩ := q
      obtain ⟨hk255, hkl, hv255, hvl⟩ := h (k, v) (List.mem_cons_self _ _)
      obtain ⟨bs', henc', hdec'⟩ := ih fun q hq => h q (List.mem_cons_of_mem _ hq)
      refine ⟨le32 k.length ++ k ++ le32 v.length ++ v ++ bs', ?_, ?_⟩
      · simp [encStrRecords, latin1Encode_ok hk255, latin1Encode_ok hv255,
          hkl, hvl, henc', Bind.bind, Except.bind]
      · intro acc
        have hassoc : (le32 k.length ++ k ++ le32 v.length ++ v ++ bs') ++ rest =
            le32 k.length ++ (k ++ (le32 v.length ++ (v ++ (bs' ++ rest)))) := by
          simp [List.append_assoc]
        obtain ⟨s1, s2, s3, s4, s5⟩ := strRecord_slices k v (bs' ++ rest) hkl hvl
        have hcount : ((k, v) :: tl).length = tl.length + 1 := rfl
        rw [hassoc, hcount]
        simp only [getNamedStringVariables, s1, s2, s3, s4, s5]
        rw [hdec' (acc ++ [(k, TagVal.str v)])]
        simp

theorem generateTagBlockData_roundtrip (l : List (List Nat × TagVal))
    (hints : ∀ q ∈ intPairs l, (∀ c ∈ q.1, c ≤ 255)
      ∧ q.1.length < 4294967296 ∧ q.2 < 4294967296)
    (hstrs : ∀ q ∈ strPairs l, (∀ c ∈ q.1, c ≤ 255)
      ∧ q.1.length < 4294967296 ∧ (∀ c ∈ q.2, c ≤ 255)
      ∧ q.2.length < 4294967296)
    (hci : (intPairs l).length < 4294967296)
    (hcs : (strPairs l).length < 4294967296) :
    (generateTagBlockData l).map tagBlockInit =
      .ok ((intPairs l).map (fun q => (q.1, TagVal.int q.2))
        ++ (strPairs l).map (fun q => (q.1, TagVal.str q.2))) := by
  obtain ⟨sb, hsb, hsbdec⟩ := encStrRecords_decode (strPairs l) [] hstrs
  obtain ⟨ib, hib, hibdec⟩ :=
    encIntRecords_decode (intPairs l) (le32 (strPairs l).length ++ sb) hints
  have hgen : generateTagBlockData l =
      .ok (le32 (intPairs l).length ++ ib ++ le32 (strPairs l).length ++ sb) := by
    simp [generateTagBlockData, hci, hcs, hib, hsb, Bind.bind, Except.bind]
  have hassoc : le32 (intPairs l).length ++ ib ++ le32 (strPairs l).length ++ sb =
      le32 (intPairs l).length ++ (ib ++ (le32 (strPairs l).length ++ sb)) := by
    simp [List.append_assoc]
  have ht4 : (le32 (intPairs l).length
      ++ (ib ++ (le32 (strPairs l).length ++ sb))).take 4 =
      le32 (intPairs l).length := take_of_append (le32_length _)
  have hd4 : (le32 (intPairs l).length
      ++ (ib ++ (le32 (strPairs l).length ++ sb))).drop 4 =
      ib ++ (le32 (strPairs l).length ++ sb) := drop_of_append (le32_length _)
  have hint := hibdec []
  have hst4 : (le32 (strPairs l).length ++ sb).take 4 =
      le32 (strPairs l).length := take_of_append (le32_length _)
  have hsd4 : (le32 (strPairs l).length ++ sb).drop 4 = sb :=
    drop_of_append (le32_length _)
  have hstr := hsbdec ((intPairs l).map (fun q => (q.1, TagVal.int q.2)))
  rw [hgen, hassoc]
  simp only [Except.map, tagBlockInit, ht4, hd4, leNat_le32 _ hci]
  rw [hint]
  simp only [List.nil_append, hst4, hsd4, leNat_le32 _ hcs]
  rw [← List.append_nil sb, hstr]

theorem extractOld_packed (f : List Nat → Except PrayErr (List Nat))
    (blocks : List PrayBlockD) (t nm body rest : List Nat)
    (ht : t.length = 4) (hnm : nm.length ≤ 127) (hrs : rstripZero nm = nm)
    (hb : body.length < 4294967296) :
    extractPrayBlocksOld f blocks
        (packBlockHeader t nm body.length body.length 0 ++ (body ++ rest)) =
      if (rest.length ≠ 0) then
        extractPrayBlocksOld f
          (blocks ++ [⟨t, nm, body.length, body.length, body, body⟩]) rest
      else
        .ok (blocks ++ [⟨t, nm, body.length, body.length, body, body⟩]) := by
  have hup := unpackHeader_pack t nm body.length body.length 0 (body ++ rest)
    ht (by omega) hb hb (by omega)
  simp only [unpackHeader, HeaderInfo.mk.injEq] at hup
  obtain ⟨e1, e2, e3, e4, e5⟩ := hup
  have hdrop144 :
      (packBlockHeader t nm body.length body.length 0 ++ (body ++ rest)).drop 144
        = body ++ rest := drop_of_append (packBlockHeader_length _ _ _ _ _)
  have hcomp : (body ++ rest).take body.length = body := take_of_append rfl
  have hrem :
      (packBlockHeader t nm body.length body.length 0 ++ (body ++ rest)).drop
        (144 + body.length) = rest := by
    rw [drop_split, hdrop144]; exact drop_of_append rfl
  have hname : rstripZero (((packBlockHeader t nm body.length body.length 0
      ++ (body ++ rest)).drop 4).take 128) = nm := by
    rw [e2, rstripZero_append_zeros, hrs]
  rw [extractPrayBlocksOld.eq_def]
  simp only [e1, e3, e4, e5, hname, hdrop144, hcomp, hrem]
  norm_num
  split
  · rfl
  · rfl

theorem extractNew_typeError (blocks : List Block) (data : List Nat) :
    extractPrayBlocksNew blocks data = .error .typeError := by
  rw [extractPrayBlocksNew.eq_def]
  simp [blockInitName, Bind.bind, Except.bind]

theorem readVarAux_int_empty (n : Nat) :
    ∀ acc, readVariableTypeAux intReader n [] acc =
      .ok (acc ++ List.replicate n ([], TagVal.int 0), []) := by
  induction n with
  | zero => intro acc; simp [readVariableTypeAux]
  | succ m ih =>
      intro acc
      have h1 : readPrefixedStringS [] = .ok ([], []) := rfl
      simp only [readVariableTypeAux, h1, intReader, readUint32S, leNat,
        List.foldr_nil, Bind.bind, Except.bind, List.take_nil, List.drop_nil]
      rw [ih (acc ++ [([], TagVal.int 0)])]
      simp [List.replicate_succ]

/-- C8: `Block._read_block` raises its too-short `ValueError` (the
spec's `TruncatedHeader`) for every buffer of fewer than 144 bytes,
whatever the bytes are and whatever the decompressor would do — no
header field or body processing happens first. -/
theorem c8_truncated_header
    (decompressFn : List Nat → Except PrayErr (List Nat)) (b : Block)
    (data : List Nat) (h : data.length < 144) :
    readBlock decompressFn b data = .error .truncatedHeader := by
  simp [readBlock, h]

theorem c8_truncated_header_witness :
    (List.replicate 143 0).length < 144 ∧
    readBlock failD mkBlock (List.replicate 143 0) = .error .truncatedHeader :=
  ⟨by decide, c8_truncated_header failD mkBlock (List.replicate 143 0) (by decide)⟩

/-- C10: the `Block.prefix` setter raises `TypeError` on any instance
whose class is not exactly `Block` or `TagBlock`, raises `ValueError`
on `Block`/`TagBlock` instances when the value is not 4 characters
long, and in both failure cases leaves the instance unchanged. -/
theorem c10_pfx_setter (b : Block) (v : List Nat) :
    (b.kind = .derived → pfxSetter b v = (b, some .typeError)) ∧
    ((b.kind = .generic ∨ b.kind = .tags) → v.length ≠ 4 →
      pfxSetter b v = (b, some .valueError)) := by
  constructor
  · intro h; simp [pfxSetter, h, kindMutable]
  · rintro (h | h) hv <;> simp [pfxSetter, h, kindMutable, hv]

theorem c10_pfx_setter_witness :
    pfxSetter ⟨.derived, [0x4E, 0x4F, 0x4E, 0x45], [], false, []⟩ [65, 66, 67, 68]
      = (⟨.derived, [0x4E, 0x4F, 0x4E, 0x45], [], false, []⟩, some .typeError) ∧
    pfxSetter mkBlock [65] = (mkBlock, some .valueError) :=
  ⟨(c10_pfx_setter ⟨.derived, [0x4E, 0x4F, 0x4E, 0x45], [], false, []⟩
      [65, 66, 67, 68]).1 rfl,
   (c10_pfx_setter mkBlock [65]).2 (Or.inl rfl) (by decide)⟩

/-- C9: a 127-character cp1252-encodable name passes the name setter, a
128-character one fails with the spec's `InvalidNameEncoding`, and on
the encode path a name the wire charset cannot represent makes both
serializers fail before producing any output bytes. -/
theorem c9_name_boundary :
    (setName mkBlock (List.replicate 127 97) =
      .ok { mkBlock with name := List.replicate 127 97 }) ∧
    (∃ out, dataBytes { mkBlock with name := List.replicate 127 97 } = .ok out) ∧
    (setName mkBlock (List.replicate 128 97) = .error .invalidNameEncoding) ∧
    (∀ (b : Block) (compressFn : List Nat → List Nat),
      (∃ c ∈ b.name, 255 < c) →
        dataBytes b = .error .invalidNameEncoding ∧
        dataCompressed compressFn b = .error .invalidNameEncoding) := by
  refine ⟨?_, ?_, by decide, ?_⟩
  · exact setName_ok mkBlock (List.replicate 127 97)
      (by intro c hc; rw [List.eq_of_mem_replicate hc]; decide)
      (by simp)
  · exact ⟨_, dataBytes_pack [0x4E, 0x4F, 0x4E, 0x45] (List.replicate 127 97)
      [] false (by intro c hc; rw [List.eq_of_mem_replicate hc]; decide)
      (by simp)⟩
  · intro b compressFn h
    have hl := latin1Encode_fail h
    constructor
    · simp [dataBytes, writeBlockHeader, hl, Bind.bind, Except.bind]
    · simp [dataCompressed, writeBlockHeader, hl, Bind.bind, Except.bind]

theorem c9_name_boundary_witness :
    dataBytes ⟨.generic, [0x4E, 0x4F, 0x4E, 0x45], [0x20AC], false, []⟩
      = .error .invalidNameEncoding ∧
    dataCompressed id ⟨.generic, [0x4E, 0x4F, 0x4E, 0x45], [0x20AC], false, []⟩
      = .error .invalidNameEncoding :=
  c9_name_boundary.2.2.2 ⟨.generic, [0x4E, 0x4F, 0x4E, 0x45], [0x20AC], false, []⟩
    id ⟨0x20AC, by decide, by decide⟩

/-- C3 counterexample: the compression-flag word 2 has bit 0 clear, yet
`Block._read_block_header` (Python truthiness on the whole word) marks
the block compressed when the two length fields differ — the claim says
any flag with bit 0 clear must decode as uncompressed. -/
theorem c3_flag_cex :
    Nat.testBit 2 0 = false ∧
    readBlockHeader mkBlock (packBlockHeader [78, 79, 78, 69] [97] 1 0 2) =
      .ok (⟨.generic, [78, 79, 78, 69], [97], true, []⟩, 1, 0) := by
  constructor
  · decide
  · decide

/-- C3 amended: on `blocks.py` decode the compressed determination is
(flag word ≠ 0) AND (stored length ≠ decompressed length) — Python
truthiness of the whole 32-bit word, not its lowest bit.  In particular
a header with the flag set but equal lengths is decoded as uncompressed
and its body is never passed to the decompressor (shown with a
decompressor that fails on every input). -/
theorem c3_flag_amended (p nm : List Nat) (s d f : Nat) (body : List Nat)
    (hp : p.length = 4) (hlen : nm.length ≤ 127) (hrs : rstripZero nm = nm)
    (hcp : ∀ c ∈ nm, (cp1252Byte c).isSome)
    (hs : s < 4294967296) (hd : d < 4294967296) (hf : f < 4294967296) :
    readBlockHeader mkBlock (packBlockHeader p nm s d f ++ body) =
      .ok (⟨.generic, p, nm, decide (f ≠ 0 ∧ s ≠ d), []⟩, s, d) ∧
    (body.length = s →
      readBlock failD mkBlock (packBlockHeader p nm s s 1 ++ body) =
        .ok ⟨.generic, p, nm, false, body⟩) := by
  constructor
  · exact readBlockHeader_generic p nm s d f body hp hlen hrs hcp hs hd hf
  · intro hbl
    subst hbl
    have hlen144 : (packBlockHeader p nm body.length body.length 1 ++ body).length
        = 144 + body.length := by
      simp [packBlockHeader_length]
    have hrh := readBlockHeader_generic p nm body.length body.length 1 body
      hp hlen hrs hcp hs hs (by omega)
    have hdrop : (packBlockHeader p nm body.length body.length 1 ++ body).drop 144
        = body := drop_of_append (packBlockHeader_length _ _ _ _ _)
    simp [readBlock, hlen144, hrh, hdrop, Bind.bind, Except.bind]

theorem c3_flag_amended_witness :
    readBlockHeader mkBlock
        (packBlockHeader [65, 66, 67, 68] [97] 5 7 2 ++ [9, 9, 9, 9, 9]) =
      .ok (⟨.generic, [65, 66, 67, 68], [97], true, []⟩, 5, 7) ∧
    readBlock failD mkBlock
        (packBlockHeader [65, 66, 67, 68] [97] 5 5 1 ++ [9, 9, 9, 9, 9]) =
      .ok ⟨.generic, [65, 66, 67, 68], [97], false, [9, 9, 9, 9, 9]⟩ := by
  have h := c3_flag_amended [65, 66, 67, 68] [97] 5 7 2 [9, 9, 9, 9, 9]
    (by decide) (by decide) (by decide) (by decide) (by decide) (by decide)
    (by decide)
  exact ⟨h.1, h.2 rfl⟩

/-- C1 counterexample: a generic block whose two-character name ends in
a NUL — both characters cp1252/latin-1 encodable, name well under 127
characters — serializes fine, but decode strips the trailing NUL along
with the padding: the decoded name is one character, not the original
two, so `Decode(Encode(Block))` does not reconstruct the name. -/
theorem c1_roundtrip_cex :
    (dataBytes ⟨.generic, [78, 79, 78, 69], [97, 0], false, [5, 6, 7]⟩).bind
        (readBlock failD mkBlock) =
      .ok ⟨.generic, [78, 79, 78, 69], [97], false, [5, 6, 7]⟩ ∧
    ([97] : List Nat) ≠ [97, 0] := by
  constructor
  · decide
  · decide

/-- C1 amended: round-trip holds for every 4-byte type tag, every body
below the u32 bound, and every name of at most 127 wire-charset
characters that is unchanged by NUL-stripping; on the compressed path
it additionally requires the compressed body length to differ from the
uncompressed length (when the two collide the decoder hands back the
still-compressed bytes), with the compressor abstracted as any pair of
mutually inverse functions. -/
theorem c1_roundtrip_amended (p nm body : List Nat) (cf : Bool)
    (compressFn : List Nat → List Nat)
    (decompressFn : List Nat → Except PrayErr (List Nat))
    (hp : p.length = 4)
    (hnm : ∀ c ∈ nm, c ≤ 255 ∧ (cp1252Byte c).isSome)
    (hlen : nm.length ≤ 127)
    (hrs : rstripZero nm = nm)
    (hb : body.length < 4294967296)
    (hinv : decompressFn (compressFn body) = .ok body)
    (hcl : (compressFn body).length ≠ body.length)
    (hcb : (compressFn body).length < 4294967296) :
    (dataBytes ⟨.generic, p, nm, cf, body⟩).bind
        (readBlock decompressFn mkBlock) =
      .ok ⟨.generic, p, nm, false, body⟩ ∧
    (dataCompressed compressFn ⟨.generic, p, nm, cf, body⟩).bind
        (readBlock decompressFn mkBlock) =
      .ok ⟨.generic, p, nm, true, body⟩ := by
  have h255 : ∀ c ∈ nm, c ≤ 255 := fun c hc => (hnm c hc).1
  have hcp : ∀ c ∈ nm, (cp1252Byte c).isSome := fun c hc => (hnm c hc).2
  constructor
  · rw [dataBytes_pack p nm body cf h255 hb]
    simpa [Except.bind] using
      readBlock_uncompressed decompressFn p nm body hp hlen hrs hcp hb
  · rw [dataCompressed_pack compressFn p nm body cf h255 hb hcb]
    simpa [Except.bind] using
      readBlock_compressed compressFn decompressFn p nm body hp hlen hrs hcp
        hb hinv hcl hcb

theorem c1_roundtrip_amended_witness :
    (dataBytes ⟨.generic, [78, 79, 78, 69], [104, 105], false, [1, 2, 3]⟩).bind
        (readBlock stubDecompress mkBlock) =
      .ok ⟨.generic, [78, 79, 78, 69], [104, 105], false, [1, 2, 3]⟩ ∧
    (dataCompressed stubCompress
        ⟨.generic, [78, 79, 78, 69], [104, 105], false, [1, 2, 3]⟩).bind
        (readBlock stubDecompress mkBlock) =
      .ok ⟨.generic, [78, 79, 78, 69], [104, 105], true, [1, 2, 3]⟩ :=
  c1_roundtrip_amended [78, 79, 78, 69] [104, 105] [1, 2, 3] false
    stubCompress stubDecompress (by decide) (by decide) (by decide) (by decide)
    (by decide) (by decide) (by decide) (by decide)

/-- C7 counterexample: a tag body declaring one integer entry and then
ending immediately — the declared count runs past the end of the body —
does not fail with `TruncatedVariableList` (or at all): the stream
reads come back short and the decoder happily returns the default entry
(empty key, value 0). -/
theorem c7_truncation_cex :
    tagReadBody [1, 0, 0, 0] = .ok [([], TagVal.int 0)] ∧
    tagReadBody [1, 0, 0, 0] ≠ .error .truncatedVariableList := by
  constructor
  · decide
  · decide

/-- C7 amended: `TagBlock` tag decoding never raises on truncation.  A
body that declares `c` integer entries and carries no bytes for them
yields `c` silently fabricated `("", 0)` entries, and a declared
key/value length running past the end of the body silently truncates
(the example declares a 5-byte key of which 1 byte exists and a string
value past the end, decoding to one `("a", "")` entry). -/
theorem c7_truncation_amended (c : Nat) (h : c < 4294967296) :
    tagReadBody (le32 c) = .ok (List.replicate c ([], TagVal.int 0)) ∧
    tagReadBody [0, 0, 0, 0, 1, 0, 0, 0, 5, 0, 0, 0, 97] =
      .ok [([97], TagVal.str [])] := by
  constructor
  · have ht : (le32 c).take 4 = le32 c := List.take_of_length_le (by simp [le32])
    have hd : (le32 c).drop 4 = [] := by simp [le32]
    simp only [tagReadBody, readUint32S, ht, hd, leNat_le32 c h, Bind.bind,
      Except.bind]
    rw [readVarAux_int_empty c []]
    simp [readVariableTypeAux, leNat]
  · decide

theorem c7_truncation_amended_witness :
    tagReadBody [2, 0, 0, 0] = .ok [([], TagVal.int 0), ([], TagVal.int 0)] ∧
    tagReadBody [0, 0, 0, 0, 1, 0, 0, 0, 5, 0, 0, 0, 97] =
      .ok [([97], TagVal.str [])] :=
  c7_truncation_amended 2 (by decide)

theorem prayerOldInit_append (f : List Nat → Except PrayErr (List Nat))
    (blocks : List PrayBlockD) (x : List Nat) :
    prayerOldInit f blocks ([80, 82, 65, 89] ++ x) =
      extractPrayBlocksOld f blocks x := by
  have h1 : (([80, 82, 65, 89] : List Nat) ++ x).take 4 = [80, 82, 65, 89] :=
    take_of_append rfl
  have h2 : (([80, 82, 65, 89] : List Nat) ++ x).drop 4 = x :=
    drop_of_append rfl
  simp [prayerOldInit, h1, h2]

theorem prayerNewInit_append (blocks : List Block) (x : List Nat) :
    prayerNewInit blocks ([80, 82, 65, 89] ++ x) = .error .typeError := by
  have h1 : (([80, 82, 65, 89] : List Nat) ++ x).take 4 = [80, 82, 65, 89] :=
    take_of_append rfl
  have h2 : (([80, 82, 65, 89] : List Nat) ++ x).drop 4 = x :=
    drop_of_append rfl
  simp [prayerNewInit, h1, h2, extractNew_typeError]

/-- C6 counterexample: a buffer that is exactly the 4 magic bytes does
not decode to an empty block list — the older revision's walker is
entered unconditionally and fabricates one degenerate block (empty
type, empty name, zero lengths, empty data) out of the empty remainder. -/
theorem c6_magic_only_cex :
    prayerOldInit failD [] [80, 82, 65, 89] = .ok [⟨[], [], 0, 0, [], []⟩] ∧
    (Except.ok [(⟨[], [], 0, 0, [], []⟩ : PrayBlockD)]
      : Except PrayErr (List PrayBlockD)) ≠ .ok [] := by
  constructor
  · have hb : ([80, 82, 65, 89] : List Nat) = [80, 82, 65, 89] ++ [] := by simp
    rw [hb, prayerOldInit_append, extractPrayBlocksOld.eq_def]
    decide
  · decide

/-- C6 amended: decoding the magic-only buffer does not yield an empty
list.  The older `prayer.py` revision succeeds but returns a single
degenerate block with empty type and name, zero lengths and empty
bodies (its walker runs at least once); the newer `Prayer` revision
raises `TypeError` because its walker passes the (empty) buffer to
`Block` positionally as the name argument. -/
theorem c6_magic_only_amended :
    prayerOldInit failD [] [80, 82, 65, 89] = .ok [⟨[], [], 0, 0, [], []⟩] ∧
    prayerNewInit [] [80, 82, 65, 89] = .error .typeError := by
  constructor
  · have hb : ([80, 82, 65, 89] : List Nat) = [80, 82, 65, 89] ++ [] := by simp
    rw [hb, prayerOldInit_append, extractPrayBlocksOld.eq_def]
    decide
  · have hb : ([80, 82, 65, 89] : List Nat) = [80, 82, 65, 89] ++ [] := by simp
    rw [hb, prayerNewInit_append]

/-- C4: container decoding is NOT free of shared mutable state — the
`blocks` list is class-level, so it accumulates across instances.
Decoding `c4Buf` against a fresh interpreter state yields one block,
but decoding the very same buffer again (second instance, same
class-level list) yields two: the second container's `blocks` holds the
first container's block too. -/
theorem c4_shared_blocks_list :
    prayerOldInit failD [] c4Buf = .ok [c4Dict] ∧
    prayerOldInit failD [c4Dict] c4Buf = .ok [c4Dict, c4Dict] := by
  have hlen : c4Body.length = 10 := by simp [c4Body]
  have hstep : ∀ blocks, extractPrayBlocksOld failD blocks
      (packBlockHeader [65, 65, 65, 65] [] 10 10 0 ++ (c4Body ++ [])) =
      .ok (blocks ++ [c4Dict]) := by
    intro blocks
    have h := extractOld_packed failD blocks [65, 65, 65, 65] [] c4Body []
      (by decide) (by decide) (by decide) (by rw [hlen]; norm_num)
    rw [hlen] at h
    rw [if_neg (by decide)] at h
    exact h
  constructor
  · simp only [c4Buf]
    rw [prayerOldInit_append, hstep]
    simp
  · simp only [c4Buf]
    rw [prayerOldInit_append, hstep]
    simp

/-- C5: on the older revision's walker the two-block container decodes,
from a fresh state, to exactly the two dicts in file order (10-byte
body first, then 20-byte body; each step advances 144 + stored bytes).
The newer `Prayer._extract_pray_blocks` instead raises `TypeError` on
this very buffer, because it passes the buffer positionally to `Block`
as its `name` parameter. -/
theorem c5_container_walker :
    prayerOldInit failD [] c5Buf = .ok [c5Dict1, c5Dict2] ∧
    prayerNewInit [] c5Buf = .error .typeError := by
  have hlen1 : c5Body1.length = 10 := by simp [c5Body1]
  have hlen2 : c5Body2.length = 20 := by simp [c5Body2]
  constructor
  · simp only [c5Buf]
    rw [prayerOldInit_append]
    have h1 := extractOld_packed failD [] [70, 73, 76, 69] [] c5Body1
      (packBlockHeader [70, 73, 76, 69] [] 20 20 0 ++ (c5Body2 ++ []))
      (by decide) (by decide) (by decide) (by rw [hlen1]; norm_num)
    rw [hlen1] at h1
    rw [if_pos (by simp [packBlockHeader_length])] at h1
    rw [h1]
    simp only [List.nil_append]
    have h2 := extractOld_packed failD
      [⟨[70, 73, 76, 69], [], 10, 10, c5Body1, c5Body1⟩] [70, 73, 76, 69] []
      c5Body2 [] (by decide) (by decide) (by decide) (by rw [hlen2]; norm_num)
    rw [hlen2] at h2
    rw [if_neg (by decide)] at h2
    rw [h2]
    simp [c5Dict1, c5Dict2]
  · simp only [c5Buf]
    exact prayerNewInit_append [] _

/-- C2: the `blocks.py` tag-block encoder crashes — `TagBlock._write_body`
calls `_write_variable_type(ints, _write_uint32)` without its stream and
`src` arguments, raising `TypeError` for every variable list, so it
never emits any records.  The older `generate_tag_block_data` revision
implements the claimed encoding: the scenario list
`[("Subject", "Test"), ("Sender UserID", 17827)]` is partitioned
integers-first into count-prefixed records, and decoding its output
yields `[("Sender UserID", 17827), ("Subject", "Test")]`. -/
theorem c2_tag_partition_example :
    tagWriteBody [([83, 117, 98, 106, 101, 99, 116],
        TagVal.str [84, 101, 115, 116]),
      ([83, 101, 110, 100, 101, 114, 32, 85, 115, 101, 114, 73, 68],
        TagVal.int 17827)] = .error .typeError ∧
    (generateTagBlockData [([83, 117, 98, 106, 101, 99, 116],
        TagVal.str [84, 101, 115, 116]),
      ([83, 101, 110, 100, 101, 114, 32, 85, 115, 101, 114, 73, 68],
        TagVal.int 17827)]).map tagBlockInit =
      .ok [([83, 101, 110, 100, 101, 114, 32, 85, 115, 101, 114, 73, 68],
        TagVal.int 17827),
        ([83, 117, 98, 106, 101, 99, 116], TagVal.str [84, 101, 115, 116])] := by
  constructor
  · rfl
  · decide
